import Mathlib

/-!
# geofiddle: the static responder of `main.go`

A shallow embedding of `main.go` (`readFile`, `main`, `indexHandler`) together
with the part of Go's standard library that decides what the handler writes:
`fmt.Fprintf` called with a format string and no operands.

Go strings are byte sequences; they are modelled as lists of natural numbers
(one number per byte).
-/

set_option autoImplicit false

namespace GeoFiddle

/-! ## Go strings -/

/-- A Go `string`: a sequence of bytes. -/
abbrev GoString := List Nat

/-- The bytes of an ASCII string literal of the source. -/
def bytes (s : String) : GoString := s.data.map Char.toNat

/-- Indexing `s[i]`; every use in the model is guarded by a bound check, as in the source. -/
def byteAt (s : GoString) (i : Nat) : Nat := s.getD i 0

/-- The slice expression `s[lo:hi]` on a string. -/
def sliceStr (s : GoString) (lo hi : Nat) : GoString := (s.take hi).drop lo

/-! ## unicode/utf8 -/

/-- The constant `utf8.RuneError`, U+FFFD. -/
def RuneError : Nat := 0xFFFD

/-- Go's `utf8.DecodeRuneInString`: the first rune of `s` and its width in bytes;
`(RuneError, 1)` on an invalid encoding. The table `first` and the `acceptRanges`
of the library are written out as comparisons on the leading byte. -/
def DecodeRuneInString (s : GoString) : Nat × Nat :=
  match s with
  | [] => (RuneError, 0)
  | s0 :: _ =>
    if s0 < 0x80 then (s0, 1)
    else if s0 < 0xC2 ∨ 0xF5 ≤ s0 then (RuneError, 1)
    else
      let sz := if s0 < 0xE0 then 2 else if s0 < 0xF0 then 3 else 4
      let lo := if s0 = 0xE0 then 0xA0 else if s0 = 0xF0 then 0x90 else 0x80
      let hi := if s0 = 0xED then 0x9F else if s0 = 0xF4 then 0x8F else 0xBF
      if s.length < sz then (RuneError, 1)
      else
        let s1 := byteAt s 1
        if s1 < lo ∨ hi < s1 then (RuneError, 1)
        else if sz ≤ 2 then (((s0 &&& 0x1F) <<< 6) ||| (s1 &&& 0x3F), 2)
        else
          let s2 := byteAt s 2
          if s2 < 0x80 ∨ 0xBF < s2 then (RuneError, 1)
          else if sz ≤ 3 then
            (((s0 &&& 0x0F) <<< 12) ||| ((s1 &&& 0x3F) <<< 6) ||| (s2 &&& 0x3F), 3)
          else
            let s3 := byteAt s 3
            if s3 < 0x80 ∨ 0xBF < s3 then (RuneError, 1)
            else
              (((s0 &&& 0x07) <<< 18) ||| ((s1 &&& 0x3F) <<< 12) ||| ((s2 &&& 0x3F) <<< 6)
                ||| (s3 &&& 0x3F), 4)

/-- Go's `utf8.AppendRune`: the UTF-8 encoding of rune `r` appended to `p`. -/
def AppendRune (p : GoString) (r : Nat) : GoString :=
  if r ≤ 0x7F then p ++ [r]
  else if r ≤ 0x7FF then p ++ [0xC0 ||| (r >>> 6), 0x80 ||| (r &&& 0x3F)]
  else
    let r := if r > 0x10FFFF ∨ (0xD800 ≤ r ∧ r ≤ 0xDFFF) then RuneError else r
    if r ≤ 0xFFFF then
      p ++ [0xE0 ||| (r >>> 12), 0x80 ||| ((r >>> 6) &&& 0x3F), 0x80 ||| (r &&& 0x3F)]
    else
      p ++ [0xF0 ||| (r >>> 18), 0x80 ||| ((r >>> 12) &&& 0x3F),
            0x80 ||| ((r >>> 6) &&& 0x3F), 0x80 ||| (r &&& 0x3F)]

/-! ## fmt: `doPrintf` with an empty operand list -/

/-- Go's `fmt.tooLarge`. -/
def tooLarge (x : Int) : Bool := x > 1000000 || x < -1000000

/-- The loop of `fmt.parsenum`, run over the bytes `s[newi:end]`. -/
def parsenumLoop (end_ : Nat) : GoString → Nat → Int → Bool → Int × Bool × Nat
  | [], newi, num, isnum => (num, isnum, newi)
  | c :: cs, newi, num, isnum =>
    if 48 ≤ c ∧ c ≤ 57 then
      if tooLarge num then (0, false, end_)
      else parsenumLoop end_ cs (newi + 1) (num * 10 + ((c - 48 : Nat) : Int)) true
    else (num, isnum, newi)

/-- Go's `fmt.parsenum(s, start, end)`: `(num, isnum, newi)`. -/
def parsenum (s : GoString) (start end_ : Nat) : Int × Bool × Nat :=
  if start ≥ end_ then (0, false, end_)
  else parsenumLoop end_ (sliceStr s start end_) start 0 false

/-- The search for the closing bracket in `fmt.parseArgNumber`, at index `i` of `format`. -/
def parseArgNumberLoop (format : GoString) : GoString → Nat → Int × Nat × Bool
  | [], _ => (0, 1, false)
  | c :: cs, i =>
    if c = 93 then
      match parsenum format 1 i with
      | (width, ok, newi) =>
        if !ok || newi != i then (0, i + 1, false) else (width - 1, i + 1, true)
    else parseArgNumberLoop format cs (i + 1)

/-- Go's `fmt.parseArgNumber(format)`: `(index, wid, ok)`. -/
def parseArgNumber (format : GoString) : Int × Nat × Bool :=
  if format.length < 3 then (0, 1, false)
  else parseArgNumberLoop format (format.drop 1) 1

/-- The printer state `pp` and the local variables of `doPrintf`. The flag, width and
precision fields of `pp.fmt` are left out: they are only read when an operand is
printed, and the handler passes none. -/
structure pp where
  buf : GoString
  goodArgNum : Bool
  reordered : Bool
  i : Nat
  argNum : Nat
  afterIndex : Bool
deriving DecidableEq, Repr

/-- Go's `buffer.writeString`. -/
def pp.writeString (p : pp) (s : GoString) : pp := { p with buf := p.buf ++ s }

/-- Go's `buffer.writeByte`. -/
def pp.writeByte (p : pp) (c : Nat) : pp := { p with buf := p.buf ++ [c] }

/-- Go's `buffer.writeRune`. -/
def pp.writeRune (p : pp) (r : Nat) : pp := { p with buf := AppendRune p.buf r }

def percentBangString : GoString := bytes "%!"
def missingString : GoString := bytes "(MISSING)"
def badIndexString : GoString := bytes "(BADINDEX)"
def noVerbString : GoString := bytes "%!(NOVERB)"
def badWidthString : GoString := bytes "%!(BADWIDTH)"
def badPrecString : GoString := bytes "%!(BADPREC)"

/-- Go's `pp.badArgNum`. -/
def pp.badArgNum (p : pp) (verb : Nat) : pp :=
  ((p.writeString percentBangString).writeRune verb).writeString badIndexString

/-- Go's `pp.missingArg`. -/
def pp.missingArg (p : pp) (verb : Nat) : pp :=
  ((p.writeString percentBangString).writeRune verb).writeString missingString

/-- Go's `pp.argNumber(argNum, format, i, numArgs)`; the results are stored in the
fields `argNum`, `i` and `afterIndex`. -/
def pp.argNumber (p : pp) (format : GoString) (numArgs : Nat) : pp :=
  if format.length ≤ p.i ∨ byteAt format p.i ≠ 91 then { p with afterIndex := false }
  else
    let p := { p with reordered := true }
    match parseArgNumber (format.drop p.i) with
    | (index, wid, ok) =>
      if ok = true ∧ 0 ≤ index ∧ index < (numArgs : Int) then
        { p with argNum := index.toNat, i := p.i + wid, afterIndex := true }
      else
        { p with goodArgNum := false, i := p.i + wid, afterIndex := ok }

/-- The scan `for i < end && format[i] != '%' { i++ }`, run over the bytes `format[i:]`. -/
def skipLiteral : GoString → Nat → Nat
  | [], i => i
  | c :: cs, i => if c ≠ 37 then skipLiteral cs (i + 1) else i

/-- The `simpleFormat` loop over the flags `#`, `0`, `+`, `-` and space, run over the
bytes `format[i:]`. With no operand the fast path for simple verbs is never taken. -/
def simpleFormat : GoString → Nat → Nat
  | [], i => i
  | c :: cs, i =>
    if c = 35 ∨ c = 48 ∨ c = 43 ∨ c = 45 ∨ c = 32 then simpleFormat cs (i + 1) else i

/-- The literal text in front of the next `%`. -/
def pp.literal (p : pp) (format : GoString) : pp :=
  let p := { p with goodArgNum := true }
  let lasti := p.i
  let p := { p with i := skipLiteral (format.drop p.i) p.i }
  if p.i > lasti then p.writeString (sliceStr format lasti p.i) else p

/-- The step `Do we have width?`. With no operand `intFromArg` returns `(0, false, argNum)`. -/
def pp.width (p : pp) (format : GoString) : pp :=
  if p.i < format.length ∧ byteAt format p.i = 42 then
    { (p.writeString badWidthString) with i := p.i + 1, afterIndex := false }
  else
    match parsenum format p.i format.length with
    | (_, widPresent, i) =>
      let p := { p with i := i }
      if p.afterIndex = true ∧ widPresent = true then { p with goodArgNum := false } else p

/-- The step `Do we have precision?`. -/
def pp.precision (p : pp) (format : GoString) : pp :=
  if p.i + 1 ≤ format.length ∧ byteAt format p.i = 46 then
    let p := { p with i := p.i + 1 }
    let p := if p.afterIndex then { p with goodArgNum := false } else p
    let p := p.argNumber format 0
    if p.i < format.length ∧ byteAt format p.i = 42 then
      { (p.writeString badPrecString) with i := p.i + 1, afterIndex := false }
    else
      match parsenum format p.i format.length with
      | (_, _, i) => { p with i := i }
  else p

/-- The verb: `%%` writes a percent sign; every other verb finds no operand. -/
def pp.verb (p : pp) (format : GoString) : pp :=
  let vs : Nat × Nat :=
    if byteAt format p.i ≥ 0x80 then DecodeRuneInString (format.drop p.i)
    else (byteAt format p.i, 1)
  let p := { p with i := p.i + vs.2 }
  if vs.1 = 37 then p.writeByte 37
  else if !p.goodArgNum then p.badArgNum vs.1
  else p.missingArg vs.1

/-- One conversion specification, from the byte after `%` up to the verb: flags,
argument index, width, precision, argument index. -/
def pp.directive (p : pp) (format : GoString) : pp :=
  let p := { p with i := p.i + 1 }
  let p := { p with i := simpleFormat (format.drop p.i) p.i }
  let p := p.argNumber format 0
  let p := p.width format
  let p := p.precision format
  if !p.afterIndex then p.argNumber format 0 else p

/-- The `formatLoop` of `doPrintf(format, a)` for `len(a) = 0`; one unit of fuel per
iteration, `none` when the fuel runs out. -/
def formatLoop (format : GoString) : Nat → pp → Option pp
  | fuel, p =>
    if p.i ≥ format.length then some p
    else
      match fuel with
      | 0 => none
      | fuel + 1 =>
        let p := p.literal format
        if p.i ≥ format.length then some p
        else
          let p := p.directive format
          if p.i ≥ format.length then some (p.writeString noVerbString)
          else formatLoop format fuel (p.verb format)

/-- Go's `pp.doPrintf(format, a)` with `a` empty: the bytes left in `p.buf`. -/
def doPrintf (format : GoString) : Option GoString :=
  (formatLoop format (format.length + 1)
    { buf := [], goodArgNum := true, reordered := false, i := 0, argNum := 0,
      afterIndex := false }).map (fun p => p.buf)

/-! ## net/http: requests and response writers -/

/-- The field `URL` of a request. -/
structure URL where
  Path : GoString
  RawQuery : GoString
deriving DecidableEq, Repr

/-- A `*http.Request`, with the fields a handler can read. -/
structure Request where
  Method : GoString
  URL : URL
  Header : List (GoString × List GoString)
  Body : GoString
deriving DecidableEq, Repr

/-- A call a handler makes on its `http.ResponseWriter`. -/
inductive Call where
  | WriteHeader (statusCode : Nat)
  | Write (p : GoString)
deriving DecidableEq, Repr

/-- An `http.ResponseWriter`, as the sequence of calls made on it so far. -/
structure ResponseWriter where
  calls : List Call
deriving DecidableEq, Repr

/-- The writer the server hands to a handler for a new request. -/
def newResponse : ResponseWriter := { calls := [] }

/-- The method `WriteHeader(statusCode)`. -/
def ResponseWriter.WriteHeader (w : ResponseWriter) (statusCode : Nat) : ResponseWriter :=
  { calls := w.calls ++ [Call.WriteHeader statusCode] }

/-- The method `Write(p)`. -/
def ResponseWriter.Write (w : ResponseWriter) (p : GoString) : ResponseWriter :=
  { calls := w.calls ++ [Call.Write p] }

/-- The status codes of the explicit `WriteHeader` calls, in order. -/
def ResponseWriter.explicitStatus (w : ResponseWriter) : List Nat :=
  w.calls.filterMap (fun c => match c with
    | Call.WriteHeader n => some n
    | Call.Write _ => none)

/-- The status line of the response: the code of a leading `WriteHeader`, and 200 when
the first call is a `Write` or the handler returns without any call. -/
def ResponseWriter.status (w : ResponseWriter) : Nat :=
  match w.calls with
  | Call.WriteHeader n :: _ => n
  | _ => 200

/-- The payloads of the `Write` calls, in order. -/
def ResponseWriter.writes (w : ResponseWriter) : List GoString :=
  w.calls.filterMap (fun c => match c with
    | Call.WriteHeader _ => none
    | Call.Write p => some p)

/-- The response body: the written payloads, concatenated. -/
def ResponseWriter.body (w : ResponseWriter) : GoString := w.writes.flatten

/-- Go's `fmt.Fprintf(w, format)` with no operands: `doPrintf`, then one `w.Write` of
the buffer. -/
def Fprintf (w : ResponseWriter) (format : GoString) : Option ResponseWriter :=
  (doPrintf format).map (fun buf => w.Write buf)

/-! ## main.go -/

/-- The package-level variables of `main.go` (the HTML files cache). -/
structure Globals where
  indexHtml : GoString
  notFoundHtml : GoString
deriving DecidableEq, Repr

/-- The function `indexHandler(w, r)`; the package variables are passed in and handed
back. `none` stands for a `Fprintf` that does not return. -/
def indexHandler (g : Globals) (w : ResponseWriter) (r : Request) :
    Option (Globals × ResponseWriter) :=
  if r.URL.Path ≠ bytes "/" then
    let w := w.WriteHeader 404
    (Fprintf w g.notFoundHtml).map (fun w => (g, w))
  else
    (Fprintf w g.indexHtml).map (fun w => (g, w))

/-- The server loop: the requests are handled one after the other, each with a fresh
response writer; the result is the package variables at the end and the responses. -/
def serve (g : Globals) : List Request → Option (Globals × List ResponseWriter)
  | [] => some (g, [])
  | r :: rs =>
    match indexHandler g newResponse r with
    | none => none
    | some (g1, w) =>
      match serve g1 rs with
      | none => none
      | some (g2, ws) => some (g2, w :: ws)

/-- What a run of the program can observe of its surroundings. -/
structure World where
  /-- The file system: `ioutil.ReadFile(path)` fails on `none`. -/
  fs : GoString → Option GoString
  /-- The environment: `none` for a variable that is not set. -/
  env : GoString → Option GoString
  /-- Whether `http.ListenAndServe` ever returns (it only returns a non-nil error). -/
  listenReturns : Bool

/-- The two package-level variables. -/
inductive Var where
  | indexHtml
  | notFoundHtml
deriving DecidableEq, Repr

/-- The observable steps of a run of `main`. -/
inductive Event where
  | ReadFile (path : GoString)
  | Assign (v : Var) (value : GoString)
  | HandleFunc (pattern : GoString)
  | Getenv (key : GoString)
  | Printf (msg : GoString)
  | ListenAndServe (addr : GoString) (served : Globals)
  | Fatal
deriving DecidableEq, Repr

/-- The state of the process: package variables, the steps so far, the exit status once
the process has exited. -/
structure Proc where
  globals : Globals
  trace : List Event
  exit : Option Nat
deriving DecidableEq, Repr

/-- Record one step. -/
def Proc.emit (st : Proc) (e : Event) : Proc := { st with trace := st.trace ++ [e] }

/-- Go's `log.Fatal`: print, then `os.Exit(1)`. -/
def Proc.Fatal (st : Proc) : Proc := { st.emit Event.Fatal with exit := some 1 }

/-- Go's `filepath.Join` on two clean, non-empty elements (separator `/`). -/
def filepathJoin (a b : GoString) : GoString := a ++ bytes "/" ++ b

/-- Go's `os.Getenv`: the value, or the empty string when the variable is not set. -/
def Getenv (world : World) (key : GoString) : GoString := (world.env key).getD []

/-- The function `readFile(path)`: the contents, or `none` after `log.Fatal`. -/
def readFile (world : World) (st : Proc) (path : GoString) : Proc × Option GoString :=
  let st := st.emit (Event.ReadFile path)
  match world.fs path with
  | none => (st.Fatal, none)
  | some a => (st, some a)

/-- The function `main`. -/
def main (world : World) : Proc :=
  let st : Proc := { globals := { indexHtml := [], notFoundHtml := [] }, trace := [], exit := none }
  match readFile world st (filepathJoin (bytes "dist") (bytes "index.html")) with
  | (st, none) => st
  | (st, some a) =>
    let st := { st.emit (Event.Assign Var.indexHtml a) with
                globals := { st.globals with indexHtml := a } }
    match readFile world st (filepathJoin (bytes "static") (bytes "404.html")) with
    | (st, none) => st
    | (st, some b) =>
      let st := { st.emit (Event.Assign Var.notFoundHtml b) with
                  globals := { st.globals with notFoundHtml := b } }
      let st := st.emit (Event.HandleFunc (bytes "/"))
      let port := Getenv world (bytes "PORT")
      let st := st.emit (Event.Getenv (bytes "PORT"))
      match (if port = [] then
               (bytes "8080", st.emit (Event.Printf (bytes "Defaulting to port " ++ bytes "8080")))
             else (port, st)) with
      | (port, st) =>
        let st := st.emit (Event.Printf (bytes "Listening on port " ++ port))
        let st := st.emit (Event.ListenAndServe (bytes ":" ++ port) st.globals)
        if world.listenReturns then st.Fatal else st

/-- The paths `ioutil.ReadFile` was called with, in order. -/
def readPaths (t : List Event) : List GoString :=
  t.filterMap (fun e => match e with
    | Event.ReadFile p => some p
    | _ => none)

/-- The addresses `http.ListenAndServe` was called with, in order. -/
def listenAddrs (t : List Event) : List GoString :=
  t.filterMap (fun e => match e with
    | Event.ListenAndServe a _ => some a
    | _ => none)

/-- The assignments to the package variables, in order. -/
def assignments (t : List Event) : List (Var × GoString) :=
  t.filterMap (fun e => match e with
    | Event.Assign v x => some (v, x)
    | _ => none)

/-- The package variables as the listener saw them at each `http.ListenAndServe` call. -/
def listenSnapshots (t : List Event) : List Globals :=
  t.filterMap (fun e => match e with
    | Event.ListenAndServe _ g => some g
    | _ => none)

/-- Whether a step is the call of `http.ListenAndServe`. -/
def Event.isListen : Event → Bool
  | Event.ListenAndServe _ _ => true
  | _ => false

/-- The steps before the listener is started. -/
def beforeListen (t : List Event) : List Event := t.takeWhile (fun e => !e.isListen)

/-- The steps from the start of the listener on. -/
def fromListen (t : List Event) : List Event := t.dropWhile (fun e => !e.isListen)

/-- The document `indexHandler` hands to `Fprintf` for a request. -/
def selected (g : Globals) (r : Request) : GoString :=
  if r.URL.Path = bytes "/" then g.indexHtml else g.notFoundHtml

/-- The writer `indexHandler` hands to `Fprintf` for a request. -/
def prepared (w : ResponseWriter) (r : Request) : ResponseWriter :=
  if r.URL.Path = bytes "/" then w else w.WriteHeader 404

/-- A request with the given method and path and nothing else. -/
def mkRequest (method path : String) : Request :=
  { Method := bytes method, URL := { Path := bytes path, RawQuery := [] }, Header := [], Body := [] }

/-- The path of the index file, `filepath.Join("dist", "index.html")`. -/
def indexPath : GoString := filepathJoin (bytes "dist") (bytes "index.html")

/-- The path of the not-found file, `filepath.Join("static", "404.html")`. -/
def notFoundPath : GoString := filepathJoin (bytes "static") (bytes "404.html")

/-- A file system holding the given files and nothing else. -/
def fsOf (files : List (GoString × GoString)) (path : GoString) : Option GoString :=
  (files.find? (fun f => f.1 = path)).map (fun f => f.2)

/-- A world with both documents on disk and `PORT=9999`. -/
def worldPort9999 : World :=
  { fs := fsOf [(indexPath, bytes "<html>index</html>"), (notFoundPath, [])],
    env := fun k => if k = bytes "PORT" then some (bytes "9999") else none,
    listenReturns := false }

/-- A world with both documents on disk and `PORT` not set. -/
def worldNoPort : World :=
  { fs := fsOf [(indexPath, bytes "<html>index</html>"), (notFoundPath, bytes "<html>404</html>")],
    env := fun _ => none,
    listenReturns := false }

/-- A world where `static/404.html` is missing. -/
def worldNo404 : World :=
  { fs := fsOf [(indexPath, bytes "<html>index</html>")],
    env := fun _ => none,
    listenReturns := false }

/-! ## Lemmas on `doPrintf` -/

theorem skipLiteral_ge (l : GoString) (i : Nat) : i ≤ skipLiteral l i := by
  induction l generalizing i with
  | nil => simp [skipLiteral]
  | cons c cs ih =>
    simp only [skipLiteral]
    split
    · exact Nat.le_trans (Nat.le_succ i) (ih (i + 1))
    · exact Nat.le_refl i

theorem skipLiteral_of_not_mem (l : GoString) (i : Nat) (h : 37 ∉ l) :
    skipLiteral l i = i + l.length := by
  induction l generalizing i with
  | nil => simp [skipLiteral]
  | cons c cs ih =>
    have hc : c ≠ 37 := fun e => h (by simp [e])
    have hcs : 37 ∉ cs := fun e => h (by simp [e])
    simp only [skipLiteral, hc, ne_eq, not_false_eq_true, if_true, List.length_cons]
    rw [ih (i + 1) hcs]
    omega

theorem simpleFormat_ge (l : GoString) (i : Nat) : i ≤ simpleFormat l i := by
  induction l generalizing i with
  | nil => simp [simpleFormat]
  | cons c cs ih =>
    simp only [simpleFormat]
    split
    · exact Nat.le_trans (Nat.le_succ i) (ih (i + 1))
    · exact Nat.le_refl i

theorem parsenumLoop_ge (end_ k : Nat) (hk : k ≤ end_) (l : GoString) (newi : Nat) (num : Int)
    (isnum : Bool) (h : k ≤ newi) : k ≤ (parsenumLoop end_ l newi num isnum).2.2 := by
  induction l generalizing newi num isnum with
  | nil => simpa [parsenumLoop] using h
  | cons c cs ih =>
    simp only [parsenumLoop]
    split
    · split
      · exact hk
      · exact ih _ _ _ (Nat.le_succ_of_le h)
    · exact h

theorem parsenum_ge (s : GoString) (start end_ k : Nat) (hk : k ≤ end_) (h : k ≤ start) :
    k ≤ (parsenum s start end_).2.2 := by
  unfold parsenum
  split
  · exact hk
  · exact parsenumLoop_ge end_ k hk _ _ _ _ h

theorem argNumber_i_ge (p : pp) (format : GoString) (n : Nat) :
    p.i ≤ (p.argNumber format n).i := by
  unfold pp.argNumber
  split
  · exact Nat.le_refl _
  · simp only
    split <;> simp

theorem width_i_ge (p : pp) (format : GoString) (k : Nat) (hk : k ≤ format.length)
    (h : k ≤ p.i) : k ≤ (p.width format).i := by
  unfold pp.width
  split
  · simp [pp.writeString]; omega
  · have := parsenum_ge format p.i format.length k hk h
    simp only
    split <;> simpa using this

theorem precision_i_ge (p : pp) (format : GoString) (k : Nat) (hk : k ≤ format.length)
    (h : k ≤ p.i) : k ≤ (p.precision format).i := by
  unfold pp.precision
  split
  · simp only
    split
    · have := argNumber_i_ge { p with i := p.i + 1, goodArgNum := false } format 0
      split
      · simp [pp.writeString] at this ⊢; omega
      · apply parsenum_ge _ _ _ _ hk
        simp at this; omega
    · have := argNumber_i_ge { p with i := p.i + 1 } format 0
      split
      · simp [pp.writeString] at this ⊢; omega
      · apply parsenum_ge _ _ _ _ hk
        simp at this; omega
  · exact h

theorem literal_i_ge (p : pp) (format : GoString) : p.i ≤ (p.literal format).i := by
  unfold pp.literal
  simp only
  split <;> simp [pp.writeString, skipLiteral_ge]

theorem verb_i_ge (p : pp) (format : GoString) : p.i ≤ (p.verb format).i := by
  unfold pp.verb
  simp only
  repeat' split
  all_goals simp [pp.writeByte, pp.badArgNum, pp.missingArg, pp.writeString, pp.writeRune]

theorem directive_i_gt (p : pp) (format : GoString) (h : p.i < format.length) :
    p.i < (p.directive format).i := by
  unfold pp.directive
  simp only
  have h1 : p.i + 1 ≤ simpleFormat (List.drop (p.i + 1) format) (p.i + 1) :=
    simpleFormat_ge _ _
  have h2 := argNumber_i_ge
    { p with i := simpleFormat (List.drop (p.i + 1) format) (p.i + 1) } format 0
  have h3 := width_i_ge (pp.argNumber
    { p with i := simpleFormat (List.drop (p.i + 1) format) (p.i + 1) } format 0) format
    (p.i + 1) h (by simp at h2; omega)
  have h4 := precision_i_ge _ format (p.i + 1) h h3
  split
  · exact Nat.lt_of_lt_of_le h4 (argNumber_i_ge _ format 0)
  · exact h4

/-- The format loop never runs out of fuel when it starts with more fuel than bytes left. -/
theorem formatLoop_total (format : GoString) (fuel : Nat) (p : pp)
    (h : format.length < fuel + p.i) : ∃ q, formatLoop format fuel p = some q := by
  induction fuel generalizing p with
  | zero =>
    unfold formatLoop
    rw [if_pos (by omega)]
    exact ⟨p, rfl⟩
  | succ n ih =>
    unfold formatLoop
    split
    · exact ⟨p, rfl⟩
    · simp only
      split
      · exact ⟨_, rfl⟩
      · split
        · exact ⟨_, rfl⟩
        · apply ih
          have h1 := literal_i_ge p format
          have h2 := directive_i_gt (p.literal format) format (by omega)
          have h3 := verb_i_ge ((p.literal format).directive format) format
          omega

/-- Totality of `doPrintf`: it returns for every format string. -/
theorem doPrintf_total (format : GoString) : ∃ out, doPrintf format = some out := by
  unfold doPrintf
  obtain ⟨q, hq⟩ := formatLoop_total format (format.length + 1)
    { buf := [], goodArgNum := true, reordered := false, i := 0, argNum := 0,
      afterIndex := false } (by simp)
  exact ⟨q.buf, by rw [hq]; rfl⟩

/-- A format string without a percent byte is printed unchanged. -/
theorem doPrintf_of_not_mem (format : GoString) (h : 37 ∉ format) :
    doPrintf format = some format := by
  unfold doPrintf formatLoop
  cases format with
  | nil => simp
  | cons c cs =>
    have hs := skipLiteral_of_not_mem (c :: cs) 0 h
    simp [pp.literal, hs, pp.writeString, sliceStr]

/-! ## Lemmas on `indexHandler` -/

/-- The handler returns for every request: it writes the format expansion of the
selected document, once, and hands the package variables back unchanged. -/
theorem indexHandler_spec (g : Globals) (w : ResponseWriter) (r : Request) :
    ∃ out, doPrintf (selected g r) = some out ∧
      indexHandler g w r = some (g, (prepared w r).Write out) := by
  obtain ⟨out, hout⟩ := doPrintf_total (selected g r)
  refine ⟨out, hout, ?_⟩
  by_cases h : r.URL.Path = bytes "/"
  · simp [selected, h] at hout
    simp [indexHandler, prepared, h, Fprintf, hout]
  · simp [selected, h] at hout
    simp [indexHandler, prepared, h, Fprintf, hout]

theorem body_prepared_write (r : Request) (out : GoString) :
    ((prepared newResponse r).Write out).body = out := by
  unfold prepared
  split <;>
    simp [ResponseWriter.body, ResponseWriter.writes, ResponseWriter.Write,
      ResponseWriter.WriteHeader, newResponse]

theorem writes_prepared_write (r : Request) (out : GoString) :
    ((prepared newResponse r).Write out).writes = [out] := by
  unfold prepared
  split <;>
    simp [ResponseWriter.writes, ResponseWriter.Write, ResponseWriter.WriteHeader, newResponse]

theorem serve_spec (g : Globals) (F : Request → ResponseWriter)
    (hF : ∀ r, indexHandler g newResponse r = some (g, F r)) (rs : List Request) :
    serve g rs = some (g, rs.map F) := by
  induction rs with
  | nil => rfl
  | cons r rs ih => simp [serve, hF r, ih]

/-! ## The handler: claims C1, C2, C3, C6, C7, C10 -/

/-- C1 (code bug): for the path `/` the handler makes no explicit status write, but the
body is the format expansion of the index document, not the document: the index document
`<b>100%</b>` is answered with the body `<b>100%!<(MISSING)/b>`. -/
theorem C1_index_body_is_format_expansion :
    indexHandler { indexHtml := bytes "<b>100%</b>", notFoundHtml := bytes "not found" }
        newResponse (mkRequest "GET" "/")
      = some ({ indexHtml := bytes "<b>100%</b>", notFoundHtml := bytes "not found" },
              { calls := [Call.Write (bytes "<b>100%!<(MISSING)/b>")] })
    ∧ bytes "<b>100%!<(MISSING)/b>" ≠ bytes "<b>100%</b>" := by
  decide

/-- C2 (code bug): for a path other than `/` the handler sets status 404, but the body is
the format expansion of the not-found document, not the document: the not-found document
`<h1>404: 100% lost</h1>` is answered with the body `<h1>404: 100%!l(MISSING)ost</h1>`. -/
theorem C2_not_found_body_is_format_expansion :
    indexHandler { indexHtml := bytes "index", notFoundHtml := bytes "<h1>404: 100% lost</h1>" }
        newResponse (mkRequest "GET" "/missing-page")
      = some ({ indexHtml := bytes "index", notFoundHtml := bytes "<h1>404: 100% lost</h1>" },
              { calls := [Call.WriteHeader 404,
                          Call.Write (bytes "<h1>404: 100%!l(MISSING)ost</h1>")] })
    ∧ bytes "<h1>404: 100%!l(MISSING)ost</h1>" ≠ bytes "<h1>404: 100% lost</h1>" := by
  decide

/-- C3 (code bug): the handler returns, but the body it writes need not be one of the two
documents: with the index document `50%` and the not-found document `gone`, the request
for `/` is answered with the body `50%!(NOVERB)`. -/
theorem C3_body_is_neither_document :
    ∃ w, indexHandler { indexHtml := bytes "50%", notFoundHtml := bytes "gone" }
        newResponse (mkRequest "GET" "/")
      = some ({ indexHtml := bytes "50%", notFoundHtml := bytes "gone" }, w)
    ∧ w.body = bytes "50%!(NOVERB)"
    ∧ w.body ≠ bytes "50%" ∧ w.body ≠ bytes "gone" := by
  refine ⟨{ calls := [Call.Write (bytes "50%!(NOVERB)")] }, ?_⟩
  decide

/-- C6: for fixed documents the response to a request is a function of the request path
and the two documents only; the server answers a sequence of requests with exactly these
responses and ends with the documents it started with, so a request that occurs twice in
a sequence, with any requests before, between and after, gets the same response twice. -/
theorem C6_response_is_function_of_path_and_documents :
    ∃ F : GoString → GoString → GoString → ResponseWriter,
      (∀ (g : Globals) (rs : List Request),
        serve g rs = some (g, rs.map (fun r => F r.URL.Path g.indexHtml g.notFoundHtml))) ∧
      (∀ (g : Globals) (r : Request) (before between after : List Request),
        serve g (before ++ r :: (between ++ r :: after)) =
          some (g, before.map (fun q => F q.URL.Path g.indexHtml g.notFoundHtml) ++
            F r.URL.Path g.indexHtml g.notFoundHtml ::
              (between.map (fun q => F q.URL.Path g.indexHtml g.notFoundHtml) ++
                F r.URL.Path g.indexHtml g.notFoundHtml ::
                  after.map (fun q => F q.URL.Path g.indexHtml g.notFoundHtml)))) := by
  let F : GoString → GoString → GoString → ResponseWriter := fun path i n =>
    match indexHandler { indexHtml := i, notFoundHtml := n } newResponse
        { Method := [], URL := { Path := path, RawQuery := [] }, Header := [], Body := [] } with
    | some (_, w) => w
    | none => newResponse
  have hF : ∀ (g : Globals) (r : Request),
      indexHandler g newResponse r = some (g, F r.URL.Path g.indexHtml g.notFoundHtml) := by
    intro g r
    obtain ⟨out, h1, h2⟩ := indexHandler_spec g newResponse r
    obtain ⟨out2, h3, h4⟩ := indexHandler_spec g newResponse
      { Method := [], URL := { Path := r.URL.Path, RawQuery := [] }, Header := [], Body := [] }
    have e1 : selected g
        { Method := [], URL := { Path := r.URL.Path, RawQuery := [] }, Header := [], Body := [] }
        = selected g r := rfl
    rw [e1, h1] at h3
    cases h3
    have e2 : prepared newResponse
        { Method := [], URL := { Path := r.URL.Path, RawQuery := [] }, Header := [], Body := [] }
        = prepared newResponse r := rfl
    rw [e2] at h4
    have e3 : F r.URL.Path g.indexHtml g.notFoundHtml = (prepared newResponse r).Write out := by
      show (match indexHandler { indexHtml := g.indexHtml, notFoundHtml := g.notFoundHtml }
        newResponse
        { Method := [], URL := { Path := r.URL.Path, RawQuery := [] }, Header := [], Body := [] }
        with
        | some (_, w) => w
        | none => newResponse) = _
      rw [h4]
    rw [h2, e3]
  refine ⟨F, ?_, ?_⟩
  · intro g rs
    exact serve_spec g _ (hF g) rs
  · intro g r before between after
    rw [serve_spec g _ (hF g)]
    simp

/-- C7: two requests with the same URL path get the same response from the handler,
whatever their methods, query strings, headers and bodies are. -/
theorem C7_response_ignores_method_query_headers (g : Globals) (w : ResponseWriter)
    (r1 r2 : Request) (h : r1.URL.Path = r2.URL.Path) :
    ∃ w1, indexHandler g w r1 = some (g, w1) ∧ indexHandler g w r2 = some (g, w1) := by
  obtain ⟨out, h1, h2⟩ := indexHandler_spec g w r1
  obtain ⟨out2, h3, h4⟩ := indexHandler_spec g w r2
  have e1 : selected g r2 = selected g r1 := by simp [selected, h]
  have e2 : prepared w r2 = prepared w r1 := by simp [prepared, h]
  rw [e1, h1] at h3
  cases h3
  rw [e2] at h4
  exact ⟨_, h2, h4⟩

/-- A `GET /about` and a `POST /about?x=1` with a header and a body get the same 404 response. -/
theorem C7_witness :
    ∃ w1,
      indexHandler { indexHtml := bytes "index", notFoundHtml := bytes "gone" } newResponse
        (mkRequest "GET" "/about") =
          some ({ indexHtml := bytes "index", notFoundHtml := bytes "gone" }, w1) ∧
      indexHandler { indexHtml := bytes "index", notFoundHtml := bytes "gone" } newResponse
        { Method := bytes "POST", URL := { Path := bytes "/about", RawQuery := bytes "x=1" },
          Header := [(bytes "Accept", [bytes "text/html"])], Body := bytes "payload" } =
          some ({ indexHtml := bytes "index", notFoundHtml := bytes "gone" }, w1) :=
  C7_response_ignores_method_query_headers _ newResponse (mkRequest "GET" "/about")
    { Method := bytes "POST", URL := { Path := bytes "/about", RawQuery := bytes "x=1" },
      Header := [(bytes "Accept", [bytes "text/html"])], Body := bytes "payload" } (by decide)

/-- C10: the handler writes the format expansion of the document selected by the path
(the index document for `/`, the not-found document otherwise), in one write; when that
document contains no percent byte, the body is the document, byte for byte. -/
theorem C10_body_equals_percent_free_document (g : Globals) (r : Request) :
    (∃ out w, doPrintf (if r.URL.Path = bytes "/" then g.indexHtml else g.notFoundHtml)
        = some out ∧ indexHandler g newResponse r = some (g, w) ∧ w.writes = [out] ∧
        w.body = out) ∧
    (37 ∉ (if r.URL.Path = bytes "/" then g.indexHtml else g.notFoundHtml) →
      ∃ w, indexHandler g newResponse r = some (g, w) ∧
        w.body = (if r.URL.Path = bytes "/" then g.indexHtml else g.notFoundHtml)) := by
  obtain ⟨out, h1, h2⟩ := indexHandler_spec g newResponse r
  refine ⟨⟨out, _, h1, h2, writes_prepared_write r out, body_prepared_write r out⟩, ?_⟩
  intro h
  have h3 := doPrintf_of_not_mem _ h
  have h4 : selected g r = (if r.URL.Path = bytes "/" then g.indexHtml else g.notFoundHtml) := rfl
  rw [h4, h3] at h1
  cases h1
  exact ⟨_, h2, body_prepared_write r _⟩

/-- The documents `<html>index</html>` and `<html>404</html>` contain no percent byte and
are served unchanged for `/` and for `/missing-page`. -/
theorem C10_witness :
    (∃ w, indexHandler { indexHtml := bytes "<html>index</html>",
                         notFoundHtml := bytes "<html>404</html>" } newResponse
            (mkRequest "GET" "/") =
          some ({ indexHtml := bytes "<html>index</html>",
                  notFoundHtml := bytes "<html>404</html>" }, w) ∧
        w.body = bytes "<html>index</html>") ∧
    (∃ w, indexHandler { indexHtml := bytes "<html>index</html>",
                         notFoundHtml := bytes "<html>404</html>" } newResponse
            (mkRequest "GET" "/missing-page") =
          some ({ indexHtml := bytes "<html>index</html>",
                  notFoundHtml := bytes "<html>404</html>" }, w) ∧
        w.body = bytes "<html>404</html>") :=
  ⟨(C10_body_equals_percent_free_document
      { indexHtml := bytes "<html>index</html>", notFoundHtml := bytes "<html>404</html>" }
      (mkRequest "GET" "/")).2 (by decide),
   (C10_body_equals_percent_free_document
      { indexHtml := bytes "<html>index</html>", notFoundHtml := bytes "<html>404</html>" }
      (mkRequest "GET" "/missing-page")).2 (by decide)⟩

/-! ## Startup: claims C4, C5, C8, C9 -/

/-- C4: when reading `dist/index.html` fails, or reading `static/404.html` fails, the
process exits with status 1 through `log.Fatal`, and `http.ListenAndServe` is never
called on that run. -/
theorem C4_failed_read_exits_before_listen (world : World)
    (h : world.fs indexPath = none ∨ world.fs notFoundPath = none) :
    (main world).exit = some 1 ∧
      (main world).trace.getLast? = some Event.Fatal ∧
      listenAddrs (main world).trace = [] ∧
      fromListen (main world).trace = [] := by
  have e1 : filepathJoin (bytes "dist") (bytes "index.html") = indexPath := rfl
  have e2 : filepathJoin (bytes "static") (bytes "404.html") = notFoundPath := rfl
  cases h1 : world.fs indexPath with
  | none =>
    simp [main, readFile, e1, h1, Proc.Fatal, Proc.emit, listenAddrs, fromListen, Event.isListen]
  | some a =>
    cases h2 : world.fs notFoundPath with
    | none =>
      simp [main, readFile, e1, e2, h1, h2, Proc.Fatal, Proc.emit, listenAddrs, fromListen,
        Event.isListen]
    | some b =>
      rcases h with h | h
      · rw [h1] at h; cases h
      · rw [h2] at h; cases h

/-- With `static/404.html` missing the run reads both paths, exits with status 1 and
never listens. -/
theorem C4_witness :
    (worldNo404.fs indexPath = none ∨ worldNo404.fs notFoundPath = none) ∧
      (main worldNo404).exit = some 1 ∧
      (main worldNo404).trace.getLast? = some Event.Fatal ∧
      listenAddrs (main worldNo404).trace = [] ∧
      fromListen (main worldNo404).trace = [] :=
  ⟨Or.inr (by decide), C4_failed_read_exits_before_listen worldNo404 (Or.inr (by decide))⟩

/-- C5: in a run where both files are read, `http.ListenAndServe` is called once; its
address is `:8080` when `PORT` is not set or is empty, and `:` followed by the value of
`PORT`, unchanged, when that value is not empty. -/
theorem C5_listen_address (world : World) (a b : GoString)
    (ha : world.fs indexPath = some a) (hb : world.fs notFoundPath = some b) :
    ((world.env (bytes "PORT") = none ∨ world.env (bytes "PORT") = some []) →
      listenAddrs (main world).trace = [bytes ":8080"]) ∧
    (∀ p, world.env (bytes "PORT") = some p → p ≠ [] →
      listenAddrs (main world).trace = [bytes ":" ++ p]) := by
  have e1 : filepathJoin (bytes "dist") (bytes "index.html") = indexPath := rfl
  have e2 : filepathJoin (bytes "static") (bytes "404.html") = notFoundPath := rfl
  have e3 : bytes ":" ++ bytes "8080" = bytes ":8080" := by decide
  constructor
  · intro h
    have hp : Getenv world (bytes "PORT") = [] := by
      rcases h with h | h <;> simp [Getenv, h]
    cases hl : world.listenReturns <;>
      simp [main, readFile, e1, e2, ha, hb, hp, hl, Proc.Fatal, Proc.emit, listenAddrs, e3]
  · intro p h hne
    have hp : Getenv world (bytes "PORT") = p := by simp [Getenv, h]
    cases hl : world.listenReturns <;>
      simp [main, readFile, e1, e2, ha, hb, hp, hne, hl, Proc.Fatal, Proc.emit, listenAddrs]

/-- With `PORT=9999` the listener is started on `:9999`; with `PORT` not set, on `:8080`. -/
theorem C5_witness :
    listenAddrs (main worldPort9999).trace = [bytes ":9999"] ∧
      listenAddrs (main worldNoPort).trace = [bytes ":8080"] :=
  ⟨(C5_listen_address worldPort9999 (bytes "<html>index</html>") [] (by decide) (by decide)).2
      (bytes "9999") (by decide) (by decide),
   (C5_listen_address worldNoPort (bytes "<html>index</html>") (bytes "<html>404</html>")
      (by decide) (by decide)).1 (Or.inl (by decide))⟩

/-- C8: the handler hands the package variables back unchanged for every request, and so
does the server after any sequence of requests; in every run of `main` the assignments to
the package variables are at most the two of `main`, `indexHtml` first and `notFoundHtml`
second, and none of them comes after the call of `http.ListenAndServe`. -/
theorem C8_documents_not_mutated_after_load :
    (∀ (g : Globals) (w : ResponseWriter) (r : Request),
      ∃ w1, indexHandler g w r = some (g, w1)) ∧
    (∀ (g : Globals) (rs : List Request), ∃ ws, serve g rs = some (g, ws)) ∧
    (∀ world : World,
      (assignments (main world).trace).map Prod.fst <+: [Var.indexHtml, Var.notFoundHtml] ∧
      assignments (fromListen (main world).trace) = []) := by
  have hH : ∀ (g : Globals) (w : ResponseWriter) (r : Request),
      ∃ w1, indexHandler g w r = some (g, w1) := by
    intro g w r
    obtain ⟨out, _, h2⟩ := indexHandler_spec g w r
    exact ⟨_, h2⟩
  refine ⟨hH, ?_, ?_⟩
  · intro g rs
    induction rs with
    | nil => exact ⟨[], rfl⟩
    | cons r rs ih =>
      obtain ⟨w1, h1⟩ := hH g newResponse r
      obtain ⟨ws, h2⟩ := ih
      exact ⟨w1 :: ws, by simp [serve, h1, h2]⟩
  · intro world
    cases h1 : world.fs (filepathJoin (bytes "dist") (bytes "index.html")) with
    | none =>
      simp [main, readFile, h1, Proc.Fatal, Proc.emit, assignments, fromListen, Event.isListen]
    | some a =>
      cases h2 : world.fs (filepathJoin (bytes "static") (bytes "404.html")) with
      | none =>
        simp [main, readFile, h1, h2, Proc.Fatal, Proc.emit, assignments, fromListen,
          Event.isListen, List.prefix_iff_eq_take]
      | some b =>
        by_cases hp : Getenv world (bytes "PORT") = [] <;>
          cases hl : world.listenReturns <;>
            simp [main, readFile, h1, h2, hp, hl, Proc.Fatal, Proc.emit, assignments,
              fromListen, Event.isListen]

/-- C9: in a run where both reads succeed, `ioutil.ReadFile` is called exactly twice,
with `dist/index.html` and then with `static/404.html`, both calls come before the call
of `http.ListenAndServe`, and at that call `indexHtml` holds the contents of the first
file and `notFoundHtml` the contents of the second. -/
theorem C9_both_documents_loaded_before_listen (world : World) (a b : GoString)
    (ha : world.fs indexPath = some a) (hb : world.fs notFoundPath = some b) :
    readPaths (main world).trace = [bytes "dist/index.html", bytes "static/404.html"] ∧
      readPaths (beforeListen (main world).trace)
        = [bytes "dist/index.html", bytes "static/404.html"] ∧
      assignments (beforeListen (main world).trace)
        = [(Var.indexHtml, a), (Var.notFoundHtml, b)] ∧
      listenSnapshots (main world).trace = [{ indexHtml := a, notFoundHtml := b }] := by
  have e1 : filepathJoin (bytes "dist") (bytes "index.html") = indexPath := rfl
  have e2 : filepathJoin (bytes "static") (bytes "404.html") = notFoundPath := rfl
  have e3 : bytes "dist/index.html" = indexPath := by decide
  have e4 : bytes "static/404.html" = notFoundPath := by decide
  by_cases hp : Getenv world (bytes "PORT") = [] <;>
    cases hl : world.listenReturns <;>
      simp [main, readFile, e1, e2, ha, hb, hp, hl, Proc.Fatal, Proc.emit, readPaths,
        beforeListen, assignments, listenSnapshots, Event.isListen, e3, e4]

/-- With an empty `static/404.html` the listener starts with `notFoundHtml` empty. -/
theorem C9_witness :
    readPaths (main worldPort9999).trace = [bytes "dist/index.html", bytes "static/404.html"] ∧
      readPaths (beforeListen (main worldPort9999).trace)
        = [bytes "dist/index.html", bytes "static/404.html"] ∧
      assignments (beforeListen (main worldPort9999).trace)
        = [(Var.indexHtml, bytes "<html>index</html>"), (Var.notFoundHtml, [])] ∧
      listenSnapshots (main worldPort9999).trace
        = [{ indexHtml := bytes "<html>index</html>", notFoundHtml := [] }] :=
  C9_both_documents_loaded_before_listen worldPort9999 (bytes "<html>index</html>") []
    (by decide) (by decide)

end GeoFiddle
